import Mathlib

/-
Verification development for the event-driven array-visualization engine in
src/index.ts (repository danilasar/the-best-sort).  The definitions below are a
shallow embedding of the engine: the event model, the VisualizationContext
(Subject/Notifier), the ConsoleLoggingObserver, the ValidateArray decorator,
the synchronous TimeoutForEachStrategy and the asynchronous, abortable
AsyncTimeoutForEachStrategy.  The single-threaded setTimeout scheduler is
modelled by firing the registered timers in (due time, registration order); an
external abort is modelled by the point, in that firing sequence, at which the
AbortController trips.
-/

set_option maxRecDepth 8000

/-- Event kinds emitted during a run (enum EventType, src 28-33). -/
inductive EventType
  | STARTED
  | ELEMENT_DISPLAYED
  | COMPLETED
  | ERROR
deriving DecidableEq, Repr

/-- Shallow embedding of VisualizationEvent (src 38-45).  Elements are
VisualizableNumber wrappers, so `element` is represented by its numeric value.
The free-form metadata record is represented by the keys the code actually
writes (strategy, totalDisplayed, totalElements, error).  The wall-clock
`timestamp` field (Date.now()) is an environment read no claim depends on and
is not modelled. -/
structure VisualizationEvent where
  type : EventType
  element : Option Nat := none
  index : Option Nat := none
  delay : Option Nat := none
  mdStrategy : Option String := none
  mdTotalDisplayed : Option Nat := none
  mdTotalElements : Option Nat := none
  mdError : Option String := none
deriving DecidableEq, Repr

/-- VisualizationContext (src 225-299): the Subject holding a JS Set of
observers (insertion-ordered, duplicate-free list of observer identities),
the append-only event history and the displayed-element counter. -/
structure VisualizationContext where
  strategyName : String
  observers : List Nat
  eventHistory : List VisualizationEvent
  elementCount : Nat
deriving DecidableEq, Repr

def mkContext (name : String) : VisualizationContext :=
  { strategyName := name, observers := [], eventHistory := [], elementCount := 0 }

/-- attach (src 232-234): JS Set.add — appends iff not already present. -/
def attach (c : VisualizationContext) (o : Nat) : VisualizationContext :=
  if o ∈ c.observers then c else { c with observers := c.observers ++ [o] }

/-- detach (src 236-238): JS Set.delete. -/
def detach (c : VisualizationContext) (o : Nat) : VisualizationContext :=
  { c with observers := c.observers.filter (fun x => x != o) }

/-- Observer handlers run in iteration order; `throws o = true` means observer
o's handler raises on this event.  A raising handler stops the iteration and
the exception propagates to the emitter (the Bool component).  The returned
list records the observers whose handlers were invoked. -/
def runObservers (throws : Nat → Bool) : List Nat → List Nat × Bool
  | [] => ([], false)
  | o :: os =>
    if throws o then ([o], true)
    else
      let r := runObservers throws os
      (o :: r.1, r.2)

/-- notify (src 240-243): push the event onto the history, then invoke every
currently attached observer's update handler synchronously. -/
def notifyWith (throws : Nat → Bool) (c : VisualizationContext)
    (e : VisualizationEvent) : VisualizationContext × List Nat × Bool :=
  let c1 := { c with eventHistory := c.eventHistory ++ [e] }
  let r := runObservers throws c.observers
  (c1, r.1, r.2)

/-- notify when no observer handler raises; only the context evolution. -/
def notify (c : VisualizationContext) (e : VisualizationEvent) :
    VisualizationContext :=
  (notifyWith (fun _ => false) c e).1

/-- Event built by emitStarted (src 245-252). -/
def startedEvent (name : String) : VisualizationEvent :=
  { type := .STARTED, mdStrategy := some name }

/-- Event built by emitElementDisplayed (src 254-265); `total` is the
post-increment elementCount stored as metadata.totalDisplayed. -/
def displayedEvent (element index delay total : Nat) : VisualizationEvent :=
  { type := .ELEMENT_DISPLAYED, element := some element, index := some index,
    delay := some delay, mdTotalDisplayed := some total }

/-- Event built by emitCompleted (src 267-277). -/
def completedEvent (name : String) (total : Nat) : VisualizationEvent :=
  { type := .COMPLETED, mdStrategy := some name, mdTotalElements := some total }

/-- Event built by emitError (src 279-286). -/
def errorEvent (msg : String) : VisualizationEvent :=
  { type := .ERROR, mdError := some msg }

def emitStarted (c : VisualizationContext) : VisualizationContext :=
  notify c (startedEvent c.strategyName)

/-- emitElementDisplayed (src 254-265): increments elementCount, then notifies
with the new count as metadata.totalDisplayed. -/
def emitElementDisplayed (c : VisualizationContext)
    (element index delay : Nat) : VisualizationContext :=
  let c1 := { c with elementCount := c.elementCount + 1 }
  notify c1 (displayedEvent element index delay c1.elementCount)

def emitCompleted (c : VisualizationContext) : VisualizationContext :=
  notify c (completedEvent c.strategyName c.elementCount)

def emitError (c : VisualizationContext) (msg : String) : VisualizationContext :=
  notify c (errorEvent msg)

def getEventHistory (c : VisualizationContext) : List VisualizationEvent :=
  c.eventHistory

def getElementCount (c : VisualizationContext) : Nat :=
  c.elementCount

/-- VisualizationConfig (src 78-84).  The field called logPrefix in the source
is named logPrefixText here. -/
structure VisualizationConfig where
  baseDelayMs : Nat
  enableLogging : Bool
  logPrefixText : String
  showTimestamps : Bool
  colorize : Bool
deriving DecidableEq, Repr

/-- ConsoleLoggingObserver (src 304-341) stores the configuration snapshot
taken from the ConfigurationManager when the observer object is constructed
(the field initializer on src line 305). -/
structure ConsoleLoggingObserver where
  config : VisualizationConfig
deriving DecidableEq, Repr

def mkConsoleLoggingObserver
    (managerConfigAtConstruction : VisualizationConfig) :
    ConsoleLoggingObserver :=
  { config := managerConfigAtConstruction }

/-- Rendering of an optional string the way a JS template literal renders a
possibly-undefined value. -/
def optStr : Option String → String
  | some s => s
  | none => "undefined"

def optNatStr : Option Nat → String
  | some n => toString n
  | none => "undefined"

/-- Console lines produced by one call of ConsoleLoggingObserver.update
(src 307-340), driven by a configuration value.  The ISO timestamp text is
abbreviated to a fixed marker (the claims only concern whether output is
produced at all).  Note the JS truthiness test `event.delay ?` makes a delay
of 0 (and an absent delay) render no delay info. -/
def consoleLoggingUpdate (cfg : VisualizationConfig)
    (e : VisualizationEvent) : List String :=
  if !cfg.enableLogging then []
  else
    let ts := if cfg.showTimestamps then "[timestamp] " else ""
    match e.type with
    | .STARTED =>
      [cfg.logPrefixText ++ " " ++ ts ++ "Visualization started: " ++
        optStr e.mdStrategy]
    | .ELEMENT_DISPLAYED =>
      let delayInfo :=
        match e.delay with
        | some d => if d ≠ 0 then " (delay: " ++ toString d ++ "ms)" else ""
        | none => ""
      [cfg.logPrefixText ++ " " ++ ts ++ "Element " ++ optNatStr e.element ++
        " displayed" ++ delayInfo]
    | .COMPLETED =>
      [cfg.logPrefixText ++ " " ++ ts ++ "Visualization completed: " ++
        optNatStr e.mdTotalElements ++ " elements"]
    | .ERROR =>
      [cfg.logPrefixText ++ " " ++ ts ++ "Error: " ++ optStr e.mdError]

/-- update of a constructed ConsoleLoggingObserver: it consults only its own
construction-time snapshot `this.config`. -/
def consoleObserverUpdate (obs : ConsoleLoggingObserver)
    (e : VisualizationEvent) : List String :=
  consoleLoggingUpdate obs.config e

/-- First argument of a decorated visualize call: a JS array of
VisualizableNumber values (listed by their numeric weights) or a non-array
value. -/
inductive StrategyInput
  | notArray
  | arr (ws : List Nat)
deriving DecidableEq, Repr

/-- ValidateArray decorator (src 201-220): rejects a non-array first argument
and an empty array, synchronously, before the wrapped method body runs.
The decorated method's propertyKey is "visualize". -/
def validateArray : StrategyInput → Except String (List Nat)
  | .notArray => .error "visualize expects an array as first argument"
  | .arr [] => .error "visualize cannot work with empty array"
  | .arr ws => .ok ws

/-- The four convenience emitters of VisualizationContext, as abstract
operations for stating history/counter invariants. -/
inductive EmitOp
  | started
  | elementDisplayed (element index delay : Nat)
  | completed
  | error (msg : String)
deriving DecidableEq, Repr

def applyOp (c : VisualizationContext) : EmitOp → VisualizationContext
  | .started => emitStarted c
  | .elementDisplayed e i d => emitElementDisplayed c e i d
  | .completed => emitCompleted c
  | .error m => emitError c m

def applyOps (name : String) (ops : List EmitOp) : VisualizationContext :=
  ops.foldl applyOp (mkContext name)

def incrementsCounter : EmitOp → Bool
  | .elementDisplayed _ _ _ => true
  | _ => false

def countType (t : EventType) (h : List VisualizationEvent) : Nat :=
  h.countP (fun e => e.type == t)

def isDisplayedEvent (e : VisualizationEvent) : Bool :=
  e.type == EventType.ELEMENT_DISPLAYED

/-
The asynchronous, abortable strategy (AsyncTimeoutForEachStrategy, src
817-885).  visualize registers one setTimeout per element with delay equal to
the element's weight; the single-threaded event loop fires pending timers in
(due time, registration order).  `firingOrder` is that firing sequence: the
(index, weight) pairs sorted by weight, ties by index.
-/

/-- Scheduling order of two element timers (index, weight): the one with the
earlier due time fires first, ties broken by registration (index) order. -/
def timerBefore (a b : Nat × Nat) : Prop :=
  a.2 < b.2 ∨ (a.2 = b.2 ∧ a.1 ≤ b.1)

instance : DecidableRel timerBefore := fun a b => by
  unfold timerBefore
  infer_instance

/-- The order in which the per-element timers registered by the async strategy
fire, absent any interleaved registration. -/
def firingOrder (ws : List Nat) : List (Nat × Nat) :=
  List.insertionSort timerBefore ws.enum

inductive PromiseState
  | pending
  | resolved
  | rejected
deriving DecidableEq, Repr

/-- When the caller trips the AbortController relative to the run: never;
before visualize is entered (signal.aborted already true at the executor's
initial check, src 835-839); or after k of the element timers have fired. -/
inductive AbortSchedule
  | never
  | beforeStart
  | afterSteps (k : Nat)
deriving DecidableEq, Repr

/-- Run-local state of one async visualize call: the context plus the
closure-captured completedCount, the abort flag of the signal, whether the
onAbort listener is still registered, and the inner promise's state. -/
structure AsyncState where
  ctx : VisualizationContext
  completedCount : Nat
  aborted : Bool
  listenerAttached : Bool
  inner : PromiseState
deriving DecidableEq, Repr

/-- Body of one element timer callback (src 851-864): if the signal is
aborted, do nothing; otherwise emit ElementCompleted, bump completedCount,
and on the n-th completion remove the abort listener, emit Completed and
resolve. -/
def fireAsync (n : Nat) (t : Nat × Nat) (s : AsyncState) : AsyncState :=
  if s.aborted then s
  else
    let c1 := emitElementDisplayed s.ctx t.2 t.1 t.2
    let cc := s.completedCount + 1
    if cc = n then
      { s with ctx := emitCompleted c1, completedCount := cc,
               listenerAttached := false, inner := PromiseState.resolved }
    else
      { s with ctx := c1, completedCount := cc }

/-- Effect of AbortController.abort(): sets signal.aborted (idempotently) and
fires the onAbort listener if still registered (src 841-846), which emits the
Error event and rejects the inner promise (a reject after resolve is a
no-op). -/
def deliverAbort (s : AsyncState) : AsyncState :=
  if s.aborted then s
  else
    let s1 := { s with aborted := true }
    if s1.listenerAttached then
      { s1 with ctx := emitError s1.ctx "Visualization aborted",
                inner := match s1.inner with
                  | PromiseState.pending => PromiseState.rejected
                  | i => i }
    else s1

/-- The event loop of one async run: fires the registered timers in order,
delivering the external abort after the scheduled number of firings (the
countdown); an abort scheduled beyond the last firing is delivered after the
loop drains. -/
def asyncLoop (n : Nat) : Option Nat → List (Nat × Nat) → AsyncState → AsyncState
  | some _, [], s => deliverAbort s
  | none, [], s => s
  | some 0, t :: ts, s => asyncLoop n (some 0) ts (fireAsync n t (deliverAbort s))
  | some (k+1), t :: ts, s => asyncLoop n (some k) ts (fireAsync n t s)
  | none, t :: ts, s => asyncLoop n none ts (fireAsync n t s)

def initAsyncState (c : VisualizationContext) : AsyncState :=
  { ctx := c, completedCount := 0, aborted := false,
    listenerAttached := true, inner := PromiseState.pending }

/-- State of the promise returned by visualize itself: the catch block
(src 867-875) swallows an AbortError rejection of the inner promise (logging a
warning only), so the outer promise fulfills both on normal completion and on
cancellation; it stays pending iff the inner promise never settles. -/
def outerOf : PromiseState → PromiseState
  | PromiseState.pending => PromiseState.pending
  | _ => PromiseState.resolved

/-- One run of AsyncTimeoutForEachStrategy.visualize (src 824-876) on a fresh
context, after validation: emit Started; if the signal is already aborted,
emit Error and reject the inner promise without registering timers; otherwise
register all timers and run the event loop.  Returns the final run state and
the state of the promise visualize returned. -/
def asyncVisualize (name : String) (ws : List Nat) (sched : AbortSchedule) :
    AsyncState × PromiseState :=
  let c0 := emitStarted (mkContext name)
  match sched with
  | AbortSchedule.beforeStart =>
    let s : AsyncState :=
      { ctx := emitError c0 "Visualization aborted before start",
        completedCount := 0, aborted := true, listenerAttached := false,
        inner := PromiseState.rejected }
    (s, outerOf s.inner)
  | AbortSchedule.never =>
    let s := asyncLoop ws.length none (firingOrder ws) (initAsyncState c0)
    (s, outerOf s.inner)
  | AbortSchedule.afterSteps k =>
    let s := asyncLoop ws.length (some k) (firingOrder ws) (initAsyncState c0)
    (s, outerOf s.inner)

/-- The decorated entry point: ValidateArray runs synchronously before the
method body, so on an invalid input the call throws, no event is emitted and
the context stays fresh. -/
def asyncVisualizeChecked (name : String) (input : StrategyInput)
    (sched : AbortSchedule) : VisualizationContext × Except String PromiseState :=
  match validateArray input with
  | .error m => (mkContext name, .error m)
  | .ok ws =>
    let r := asyncVisualize name ws sched
    (r.1.ctx, .ok r.2)

/-
The synchronous strategy (TimeoutForEachStrategy, src 471-512).  Each element
registers a timer with delay equal to its weight; the callback of the element
at the LAST INDEX additionally registers, 10ms later, the timer that emits
Completed.  The event loop fires the pending timer with the least
(due, registration) pair.
-/

inductive SyncAction
  | displayElement (index weight : Nat)
  | fireCompleted
deriving DecidableEq, Repr

structure SyncTimer where
  due : Nat
  seq : Nat
  action : SyncAction
deriving DecidableEq, Repr

/-- Pick the pending timer with the least (due, seq) and the remaining list. -/
def pickMin : List SyncTimer → Option (SyncTimer × List SyncTimer)
  | [] => none
  | t :: ts =>
    match pickMin ts with
    | none => some (t, [])
    | some (m, rest) =>
      if t.due < m.due ∨ (t.due = m.due ∧ t.seq ≤ m.seq) then some (t, ts)
      else some (m, t :: rest)

/-- Event loop of the synchronous strategy, fuelled (each run fires at most
one timer per element plus the completion timer). -/
def syncLoop (lastIndex : Nat) :
    Nat → List SyncTimer → Nat → VisualizationContext → VisualizationContext
  | 0, _, _, c => c
  | fuel + 1, timers, nextSeq, c =>
    match pickMin timers with
    | none => c
    | some (t, rest) =>
      match t.action with
      | SyncAction.displayElement i w =>
        let c1 := emitElementDisplayed c w i w
        if i = lastIndex then
          syncLoop lastIndex fuel
            (rest ++ [{ due := t.due + 10, seq := nextSeq,
                        action := SyncAction.fireCompleted }])
            (nextSeq + 1) c1
        else
          syncLoop lastIndex fuel rest nextSeq c1
      | SyncAction.fireCompleted =>
        syncLoop lastIndex fuel rest nextSeq (emitCompleted c)

/-- One run of TimeoutForEachStrategy.visualize (src 477-503) on a fresh
context, after validation: emit Started, register one timer per element
(due = weight, registration order = index), then drive the event loop. -/
def syncVisualize (name : String) (ws : List Nat) : VisualizationContext :=
  let c0 := emitStarted (mkContext name)
  let timers := ws.enum.map (fun p =>
    { due := p.2, seq := p.1,
      action := SyncAction.displayElement p.1 p.2 : SyncTimer })
  syncLoop (ws.length - 1) (2 * ws.length + 2) timers ws.length c0

/-- The decorated synchronous entry point. -/
def syncVisualizeChecked (name : String) (input : StrategyInput) :
    VisualizationContext × Except String Unit :=
  match validateArray input with
  | .error m => (mkContext name, .error m)
  | .ok ws => (syncVisualize name ws, .ok ())

/-- The ElementCompleted events emitted by firing the timers `ts` in order,
starting from a context whose elementCount is `base`. -/
def displayedEvents (base : Nat) : List (Nat × Nat) → List VisualizationEvent
  | [] => []
  | t :: ts => displayedEvent t.2 t.1 t.2 (base + 1) :: displayedEvents (base + 1) ts

/-
Basic equations for the context emitters and counting helpers.
-/

lemma notify_eq (c : VisualizationContext) (e : VisualizationEvent) :
    notify c e = { c with eventHistory := c.eventHistory ++ [e] } := rfl

lemma emitStarted_eq (c : VisualizationContext) :
    emitStarted c =
      { c with eventHistory := c.eventHistory ++ [startedEvent c.strategyName] } := rfl

lemma emitElementDisplayed_eq (c : VisualizationContext) (x i d : Nat) :
    emitElementDisplayed c x i d =
      { c with elementCount := c.elementCount + 1,
               eventHistory := c.eventHistory ++
                 [displayedEvent x i d (c.elementCount + 1)] } := rfl

lemma emitCompleted_eq (c : VisualizationContext) :
    emitCompleted c =
      { c with eventHistory := c.eventHistory ++
          [completedEvent c.strategyName c.elementCount] } := rfl

lemma emitError_eq (c : VisualizationContext) (m : String) :
    emitError c m =
      { c with eventHistory := c.eventHistory ++ [errorEvent m] } := rfl

lemma countType_displayedEvents (t : EventType) (ts : List (Nat × Nat)) :
    ∀ b : Nat, countType t (displayedEvents b ts) =
      if t = EventType.ELEMENT_DISPLAYED then ts.length else 0 := by
  induction ts with
  | nil => intro b; simp [displayedEvents, countType]
  | cons p ts ih =>
    intro b
    have h := ih (b + 1)
    cases t <;>
      simp_all [displayedEvents, countType, List.countP_cons, displayedEvent]

lemma filter_displayedEvents (ts : List (Nat × Nat)) :
    ∀ b : Nat, (displayedEvents b ts).filter isDisplayedEvent = displayedEvents b ts := by
  induction ts with
  | nil => intro b; simp [displayedEvents]
  | cons p ts ih =>
    intro b
    simp [displayedEvents, List.filter_cons, isDisplayedEvent, displayedEvent, ih (b + 1)]

lemma displayedEvents_length (ts : List (Nat × Nat)) :
    ∀ b : Nat, (displayedEvents b ts).length = ts.length := by
  induction ts with
  | nil => intro b; simp [displayedEvents]
  | cons p ts ih => intro b; simp [displayedEvents, ih (b + 1)]

lemma displayedEvents_filterMap_index (ts : List (Nat × Nat)) :
    ∀ b : Nat, (displayedEvents b ts).filterMap (fun e => e.index) = ts.map Prod.fst := by
  induction ts with
  | nil => intro b; simp [displayedEvents]
  | cons p ts ih =>
    intro b
    simp [displayedEvents, List.filterMap_cons, displayedEvent, ih (b + 1)]

lemma mem_displayedEvents {e : VisualizationEvent} (ts : List (Nat × Nat)) :
    ∀ b : Nat, e ∈ displayedEvents b ts →
      ∃ p, p ∈ ts ∧ ∃ tot, e = displayedEvent p.2 p.1 p.2 tot := by
  induction ts with
  | nil => intro b h; simp [displayedEvents] at h
  | cons p ts ih =>
    intro b h
    rcases (by simpa [displayedEvents] using h) with h1 | h2
    · exact ⟨p, by simp, b + 1, h1⟩
    · rcases ih (b + 1) h2 with ⟨q, hq, tot, he⟩
      exact ⟨q, by simp [hq], tot, he⟩

/-
Characterization of the async event loop.
-/

lemma fireAsync_of_aborted (n : Nat) (t : Nat × Nat) (s : AsyncState)
    (h : s.aborted = true) : fireAsync n t s = s := by
  simp [fireAsync, h]

lemma deliverAbort_of_aborted (s : AsyncState) (h : s.aborted = true) :
    deliverAbort s = s := by
  simp [deliverAbort, h]

lemma asyncLoop_of_aborted (n : Nat) (ts : List (Nat × Nat)) :
    ∀ (ab : Option Nat) (s : AsyncState), s.aborted = true →
      asyncLoop n ab ts s = s := by
  induction ts with
  | nil =>
    intro ab s hs
    cases ab <;> simp [asyncLoop, deliverAbort_of_aborted s hs]
  | cons t ts ih =>
    intro ab s hs
    match ab with
    | none =>
      rw [asyncLoop, fireAsync_of_aborted n t s hs]
      exact ih none s hs
    | some 0 =>
      rw [asyncLoop, deliverAbort_of_aborted s hs, fireAsync_of_aborted n t s hs]
      exact ih (some 0) s hs
    | some (k+1) =>
      rw [asyncLoop, fireAsync_of_aborted n t s hs]
      exact ih (some k) s hs

lemma asyncLoop_none_run (n : Nat) (ts : List (Nat × Nat)) :
    ∀ (s : AsyncState),
      s.aborted = false → s.listenerAttached = true →
      s.inner = PromiseState.pending →
      s.ctx.elementCount = s.completedCount →
      s.completedCount + ts.length = n → ts ≠ [] →
      asyncLoop n none ts s =
        { ctx := { strategyName := s.ctx.strategyName,
                   observers := s.ctx.observers,
                   eventHistory := s.ctx.eventHistory ++
                     displayedEvents s.completedCount ts ++
                     [completedEvent s.ctx.strategyName n],
                   elementCount := n },
          completedCount := n, aborted := false, listenerAttached := false,
          inner := PromiseState.resolved } := by
  induction ts with
  | nil => intro s _ _ _ _ _ hne; exact absurd rfl hne
  | cons t ts ih =>
    intro s hA hL hI hE hN _
    rw [asyncLoop]
    by_cases hts : ts = []
    · subst hts
      have hcc : s.completedCount + 1 = n := by simpa using hN
      rw [show fireAsync n t s =
            { s with ctx := emitCompleted (emitElementDisplayed s.ctx t.2 t.1 t.2),
                     completedCount := s.completedCount + 1,
                     listenerAttached := false,
                     inner := PromiseState.resolved } by
        simp [fireAsync, hA, hcc]]
      rw [asyncLoop]
      simp [emitCompleted_eq, emitElementDisplayed_eq, displayedEvents,
            displayedEvent, completedEvent, hE, hcc, hA, hI]
    · have hlen : 0 < ts.length := List.length_pos.mpr hts
      have hN' : s.completedCount + (ts.length + 1) = n := by simpa using hN
      have hcc : s.completedCount + 1 ≠ n := by omega
      rw [show fireAsync n t s =
            { s with ctx := emitElementDisplayed s.ctx t.2 t.1 t.2,
                     completedCount := s.completedCount + 1 } by
        simp [fireAsync, hA, hcc]]
      rw [ih _ (by simpa using hA) (by simpa using hL) (by simpa using hI)
            (by simp [emitElementDisplayed_eq, hE]) (by simp; omega) hts]
      simp [emitElementDisplayed_eq, displayedEvents, hE]

lemma asyncLoop_some_lt (n : Nat) (ts : List (Nat × Nat)) :
    ∀ (k : Nat) (s : AsyncState),
      s.aborted = false → s.listenerAttached = true →
      s.inner = PromiseState.pending →
      s.ctx.elementCount = s.completedCount →
      s.completedCount + ts.length = n → k < ts.length →
      asyncLoop n (some k) ts s =
        { ctx := { strategyName := s.ctx.strategyName,
                   observers := s.ctx.observers,
                   eventHistory := s.ctx.eventHistory ++
                     displayedEvents s.completedCount (ts.take k) ++
                     [errorEvent "Visualization aborted"],
                   elementCount := s.completedCount + k },
          completedCount := s.completedCount + k, aborted := true,
          listenerAttached := true, inner := PromiseState.rejected } := by
  induction ts with
  | nil => intro k s _ _ _ _ _ hk; exact absurd hk (by simp)
  | cons t ts ih =>
    intro k s hA hL hI hE hN hk
    match k with
    | 0 =>
      rw [asyncLoop]
      have hd : deliverAbort s =
          { s with ctx := emitError s.ctx "Visualization aborted",
                   aborted := true, inner := PromiseState.rejected } := by
        simp [deliverAbort, hA, hL, hI]
      rw [hd, fireAsync_of_aborted n t _ (by simp),
          asyncLoop_of_aborted n ts (some 0) _ (by simp)]
      simp [emitError_eq, displayedEvents, hE, hL]
    | k + 1 =>
      have hN' : s.completedCount + (ts.length + 1) = n := by simpa using hN
      have hk' : k < ts.length := by simpa using hk
      have hcc : s.completedCount + 1 ≠ n := by omega
      rw [asyncLoop,
          show fireAsync n t s =
            { s with ctx := emitElementDisplayed s.ctx t.2 t.1 t.2,
                     completedCount := s.completedCount + 1 } by
        simp [fireAsync, hA, hcc]]
      rw [ih k _ (by simpa using hA) (by simpa using hL) (by simpa using hI)
            (by simp [emitElementDisplayed_eq, hE]) (by simp; omega) hk']
      simp [emitElementDisplayed_eq, displayedEvents, hE]
      omega

lemma asyncLoop_some_ge (n : Nat) (ts : List (Nat × Nat)) :
    ∀ (k : Nat) (s : AsyncState),
      s.aborted = false → s.listenerAttached = true →
      s.inner = PromiseState.pending →
      s.ctx.elementCount = s.completedCount →
      s.completedCount + ts.length = n → ts ≠ [] → ts.length ≤ k →
      asyncLoop n (some k) ts s =
        { ctx := { strategyName := s.ctx.strategyName,
                   observers := s.ctx.observers,
                   eventHistory := s.ctx.eventHistory ++
                     displayedEvents s.completedCount ts ++
                     [completedEvent s.ctx.strategyName n],
                   elementCount := n },
          completedCount := n, aborted := true, listenerAttached := false,
          inner := PromiseState.resolved } := by
  induction ts with
  | nil => intro k s _ _ _ _ _ hne _; exact absurd rfl hne
  | cons t ts ih =>
    intro k s hA hL hI hE hN _ hk
    match k with
    | 0 => exact absurd hk (by simp)
    | k + 1 =>
      rw [asyncLoop]
      by_cases hts : ts = []
      · subst hts
        have hcc : s.completedCount + 1 = n := by simpa using hN
        rw [show fireAsync n t s =
              { s with ctx := emitCompleted (emitElementDisplayed s.ctx t.2 t.1 t.2),
                       completedCount := s.completedCount + 1,
                       listenerAttached := false,
                       inner := PromiseState.resolved } by
          simp [fireAsync, hA, hcc]]
        rw [asyncLoop]
        have hd : deliverAbort
            { s with ctx := emitCompleted (emitElementDisplayed s.ctx t.2 t.1 t.2),
                     completedCount := s.completedCount + 1,
                     listenerAttached := false,
                     inner := PromiseState.resolved } =
            { s with ctx := emitCompleted (emitElementDisplayed s.ctx t.2 t.1 t.2),
                     completedCount := s.completedCount + 1,
                     aborted := true,
                     listenerAttached := false,
                     inner := PromiseState.resolved } := by
          simp [deliverAbort, hA]
        rw [hd]
        simp [emitCompleted_eq, emitElementDisplayed_eq, displayedEvents, hE, hcc]
      · have hlen : 0 < ts.length := List.length_pos.mpr hts
        have hN' : s.completedCount + (ts.length + 1) = n := by simpa using hN
        have hcc : s.completedCount + 1 ≠ n := by omega
        have hk' : ts.length ≤ k := by simpa using hk
        rw [show fireAsync n t s =
              { s with ctx := emitElementDisplayed s.ctx t.2 t.1 t.2,
                       completedCount := s.completedCount + 1 } by
          simp [fireAsync, hA, hcc]]
        rw [ih k _ (by simpa using hA) (by simpa using hL) (by simpa using hI)
              (by simp [emitElementDisplayed_eq, hE]) (by simp; omega) hts hk']
        simp [emitElementDisplayed_eq, displayedEvents, hE]

lemma firingOrder_length (ws : List Nat) : (firingOrder ws).length = ws.length := by
  simp [firingOrder, List.length_insertionSort, List.enum_length]

lemma firingOrder_ne_nil (ws : List Nat) (h : ws ≠ []) : firingOrder ws ≠ [] := by
  intro hc
  have hl := firingOrder_length ws
  rw [hc] at hl
  exact h (List.length_eq_zero.mp hl.symm)

lemma asyncVisualize_beforeStart (name : String) (ws : List Nat) :
    asyncVisualize name ws AbortSchedule.beforeStart =
      ({ ctx := { strategyName := name, observers := [],
                  eventHistory := [startedEvent name,
                    errorEvent "Visualization aborted before start"],
                  elementCount := 0 },
         completedCount := 0, aborted := true, listenerAttached := false,
         inner := PromiseState.rejected }, PromiseState.resolved) := rfl

lemma asyncVisualize_never (name : String) (ws : List Nat) (h : ws ≠ []) :
    asyncVisualize name ws AbortSchedule.never =
      ({ ctx := { strategyName := name, observers := [],
                  eventHistory := startedEvent name ::
                    (displayedEvents 0 (firingOrder ws) ++
                      [completedEvent name ws.length]),
                  elementCount := ws.length },
         completedCount := ws.length, aborted := false,
         listenerAttached := false, inner := PromiseState.resolved },
       PromiseState.resolved) := by
  have hrun := asyncLoop_none_run ws.length (firingOrder ws)
    (initAsyncState (emitStarted (mkContext name)))
    rfl rfl rfl rfl (by simp [initAsyncState, firingOrder_length])
    (firingOrder_ne_nil ws h)
  simp only [asyncVisualize, hrun]
  simp [initAsyncState, emitStarted_eq, mkContext, outerOf]

lemma asyncVisualize_afterSteps_lt (name : String) (ws : List Nat) (k : Nat)
    (hk : k < ws.length) :
    asyncVisualize name ws (AbortSchedule.afterSteps k) =
      ({ ctx := { strategyName := name, observers := [],
                  eventHistory := startedEvent name ::
                    (displayedEvents 0 ((firingOrder ws).take k) ++
                      [errorEvent "Visualization aborted"]),
                  elementCount := k },
         completedCount := k, aborted := true,
         listenerAttached := true, inner := PromiseState.rejected },
       PromiseState.resolved) := by
  have hrun := asyncLoop_some_lt ws.length (firingOrder ws) k
    (initAsyncState (emitStarted (mkContext name)))
    rfl rfl rfl rfl (by simp [initAsyncState, firingOrder_length])
    (by rw [firingOrder_length]; exact hk)
  simp only [asyncVisualize, hrun]
  simp [initAsyncState, emitStarted_eq, mkContext, outerOf]

lemma asyncVisualize_afterSteps_ge (name : String) (ws : List Nat) (k : Nat)
    (h : ws ≠ []) (hk : ws.length ≤ k) :
    asyncVisualize name ws (AbortSchedule.afterSteps k) =
      ({ ctx := { strategyName := name, observers := [],
                  eventHistory := startedEvent name ::
                    (displayedEvents 0 (firingOrder ws) ++
                      [completedEvent name ws.length]),
                  elementCount := ws.length },
         completedCount := ws.length, aborted := true,
         listenerAttached := false, inner := PromiseState.resolved },
       PromiseState.resolved) := by
  have hrun := asyncLoop_some_ge ws.length (firingOrder ws) k
    (initAsyncState (emitStarted (mkContext name)))
    rfl rfl rfl rfl (by simp [initAsyncState, firingOrder_length])
    (firingOrder_ne_nil ws h)
    (by rw [firingOrder_length]; exact hk)
  simp only [asyncVisualize, hrun]
  simp [initAsyncState, emitStarted_eq, mkContext, outerOf]

lemma countType_append (t : EventType) (h1 h2 : List VisualizationEvent) :
    countType t (h1 ++ h2) = countType t h1 + countType t h2 := by
  simp [countType, List.countP_append]

lemma countType_cons (t : EventType) (e : VisualizationEvent)
    (h : List VisualizationEvent) :
    countType t (e :: h) = countType t h + (if e.type = t then 1 else 0) := by
  simp [countType, List.countP_cons]

lemma countType_nil (t : EventType) : countType t [] = 0 := rfl
-- staging: claim theorems C3 and C6 against the characterizations

/-- C3: if the cancellation token trips before the run starts or after k of
the element timers have fired (k < N), the async strategy emits exactly one
Error event, never emits Completed, retains exactly the ElementCompleted
events of the k timers that fired strictly before the trip, and suppresses
the emissions of all timers that fire after it. -/
theorem C3_cancellation_behaviour (name : String) (ws : List Nat) (k : Nat)
    (hne : ws ≠ []) (hk : k < ws.length) :
    (countType EventType.ERROR
        (asyncVisualize name ws (AbortSchedule.afterSteps k)).1.ctx.eventHistory = 1 ∧
      countType EventType.COMPLETED
        (asyncVisualize name ws (AbortSchedule.afterSteps k)).1.ctx.eventHistory = 0 ∧
      (asyncVisualize name ws (AbortSchedule.afterSteps k)).1.ctx.eventHistory.filter
          isDisplayedEvent = displayedEvents 0 ((firingOrder ws).take k)) ∧
    (countType EventType.ERROR
        (asyncVisualize name ws AbortSchedule.beforeStart).1.ctx.eventHistory = 1 ∧
      countType EventType.COMPLETED
        (asyncVisualize name ws AbortSchedule.beforeStart).1.ctx.eventHistory = 0 ∧
      countType EventType.ELEMENT_DISPLAYED
        (asyncVisualize name ws AbortSchedule.beforeStart).1.ctx.eventHistory = 0) := by
  rw [asyncVisualize_afterSteps_lt name ws k hk, asyncVisualize_beforeStart]
  refine ⟨⟨?_, ?_, ?_⟩, ?_, ?_, ?_⟩ <;>
    simp [countType_cons, countType_append, countType_displayedEvents,
      countType_nil, startedEvent, errorEvent, filter_displayedEvents,
      isDisplayedEvent]

/-- C6: a run of the async strategy on a non-empty sequence that completes
without cancellation emits exactly one ElementCompleted per element: their
number equals the sequence length, the carried original indices are a
permutation of 0..N-1, and the event of index i carries the i-th element's
weight as both its element value and its delay. -/
theorem C6_one_event_per_element (name : String) (ws : List Nat) (hne : ws ≠ []) :
    ((asyncVisualize name ws AbortSchedule.never).1.ctx.eventHistory.filter
        isDisplayedEvent).length = ws.length ∧
    List.Perm
      (((asyncVisualize name ws AbortSchedule.never).1.ctx.eventHistory.filter
          isDisplayedEvent).filterMap (fun e => e.index))
      (List.range ws.length) ∧
    (∀ e ∈ (asyncVisualize name ws AbortSchedule.never).1.ctx.eventHistory.filter
        isDisplayedEvent,
      ∃ i, e.index = some i ∧ e.delay = ws[i]? ∧ e.element = ws[i]?) := by
  rw [asyncVisualize_never name ws hne]
  have hfilter :
      ({ strategyName := name, observers := [],
         eventHistory := startedEvent name ::
           (displayedEvents 0 (firingOrder ws) ++
             [completedEvent name ws.length]),
         elementCount := ws.length } : VisualizationContext).eventHistory.filter
        isDisplayedEvent = displayedEvents 0 (firingOrder ws) := by
    simp [List.filter_cons, List.filter_append, isDisplayedEvent,
      startedEvent, completedEvent, filter_displayedEvents]
  rw [hfilter]
  refine ⟨?_, ?_, ?_⟩
  · rw [displayedEvents_length, firingOrder_length]
  · rw [displayedEvents_filterMap_index]
    have h1 : List.Perm (firingOrder ws) ws.enum :=
      List.perm_insertionSort timerBefore ws.enum
    have h2 : List.Perm ((firingOrder ws).map Prod.fst) (ws.enum.map Prod.fst) :=
      List.Perm.map Prod.fst h1
    rw [List.enum_map_fst] at h2
    exact h2
  · intro e he
    rcases mem_displayedEvents (firingOrder ws) 0 he with ⟨p, hp, tot, rfl⟩
    have hpe : p ∈ ws.enum := (List.mem_insertionSort timerBefore).mp hp
    have hget : ws[p.1]? = some p.2 := List.mem_enum_iff_getElem?.mp hpe
    exact ⟨p.1, rfl, by simp [displayedEvent, hget], by simp [displayedEvent, hget]⟩

/-- C1 counterexample: on weights [1000, 2000] with cancellation tripped right
after the run starts, an Error event is emitted, Completed is not, and yet the
promise returned by visualize RESOLVES (the catch block swallows the
AbortError), contradicting the claim that the signal rejects iff cancellation
or an internal fault occurred. -/
theorem C1_counterexample :
    countType EventType.ERROR
      (asyncVisualize "Async setTimeout + forEach Strategy with Abort"
        [1000, 2000] (AbortSchedule.afterSteps 0)).1.ctx.eventHistory = 1 ∧
    countType EventType.COMPLETED
      (asyncVisualize "Async setTimeout + forEach Strategy with Abort"
        [1000, 2000] (AbortSchedule.afterSteps 0)).1.ctx.eventHistory = 0 ∧
    (asyncVisualize "Async setTimeout + forEach Strategy with Abort"
      [1000, 2000] (AbortSchedule.afterSteps 0)).2 = PromiseState.resolved := by
  decide

/-- C1 amended: for every validated run of the delayed-cancellable strategy,
exactly one of Completed/Error is emitted — never both, never neither — and
the completion signal is never left unresolved: the inner promise resolves
iff Completed was emitted and rejects iff cancellation occurred, but the
promise visualize returns resolves successfully in BOTH cases, because the
strategy catches the abort rejection (src 867-875); it could reject only on
an internal non-abort fault. -/
theorem C1_amended (name : String) (ws : List Nat) (sched : AbortSchedule)
    (hne : ws ≠ []) :
    countType EventType.COMPLETED
        (asyncVisualize name ws sched).1.ctx.eventHistory +
      countType EventType.ERROR
        (asyncVisualize name ws sched).1.ctx.eventHistory = 1 ∧
    countType EventType.COMPLETED
        (asyncVisualize name ws sched).1.ctx.eventHistory ≤ 1 ∧
    (asyncVisualize name ws sched).2 = PromiseState.resolved ∧
    (countType EventType.COMPLETED
        (asyncVisualize name ws sched).1.ctx.eventHistory = 1 ↔
      (asyncVisualize name ws sched).1.inner = PromiseState.resolved) ∧
    (countType EventType.ERROR
        (asyncVisualize name ws sched).1.ctx.eventHistory = 1 ↔
      (asyncVisualize name ws sched).1.inner = PromiseState.rejected) := by
  match sched with
  | AbortSchedule.beforeStart =>
    rw [asyncVisualize_beforeStart]
    refine ⟨?_, ?_, rfl, ?_, ?_⟩ <;>
      simp [countType_cons, countType_nil, startedEvent, errorEvent]
  | AbortSchedule.never =>
    rw [asyncVisualize_never name ws hne]
    refine ⟨?_, ?_, rfl, ?_, ?_⟩ <;>
      simp [countType_cons, countType_append, countType_displayedEvents,
        countType_nil, startedEvent, errorEvent, completedEvent]
  | AbortSchedule.afterSteps k =>
    rcases Nat.lt_or_ge k ws.length with hk | hk
    · rw [asyncVisualize_afterSteps_lt name ws k hk]
      refine ⟨?_, ?_, rfl, ?_, ?_⟩ <;>
        simp [countType_cons, countType_append, countType_displayedEvents,
          countType_nil, startedEvent, errorEvent, completedEvent]
    · rw [asyncVisualize_afterSteps_ge name ws k hne hk]
      refine ⟨?_, ?_, rfl, ?_, ?_⟩ <;>
        simp [countType_cons, countType_append, countType_displayedEvents,
          countType_nil, startedEvent, errorEvent, completedEvent]

/-- C2 counterexample: the synchronous TimeoutForEachStrategy schedules the
Completed event 10ms after the LAST-INDEXED element fires, so on weights
[1000, 10] the run's history is Started, ElementCompleted(index 1),
Completed, ElementCompleted(index 0): a Completed emitted before every
element's ElementCompleted, contradicting the claim for this run. -/
theorem C2_counterexample :
    (syncVisualize "setTimeout + forEach Strategy" [1000, 10]).eventHistory.map
        (fun e => e.type) =
      [EventType.STARTED, EventType.ELEMENT_DISPLAYED, EventType.COMPLETED,
        EventType.ELEMENT_DISPLAYED] := by
  decide

/-- C2 amended: restricted to the delayed-cancellable (async) strategy, the
claim holds: Started is emitted exactly once and is the first event of every
run; in a run without cancellation the history is exactly Started, all N
ElementCompleted events, then a single final Completed; and Completed is not
emitted when cancellation occurs before all elements complete. -/
theorem C2_amended (name : String) (ws : List Nat) (hne : ws ≠ []) :
    (∀ sched : AbortSchedule,
      countType EventType.STARTED
        (asyncVisualize name ws sched).1.ctx.eventHistory = 1 ∧
      (asyncVisualize name ws sched).1.ctx.eventHistory.head? =
        some (startedEvent name)) ∧
    (asyncVisualize name ws AbortSchedule.never).1.ctx.eventHistory =
      startedEvent name :: (displayedEvents 0 (firingOrder ws) ++
        [completedEvent name ws.length]) ∧
    countType EventType.COMPLETED
      (asyncVisualize name ws AbortSchedule.never).1.ctx.eventHistory = 1 ∧
    (∀ k, k < ws.length →
      countType EventType.COMPLETED
        (asyncVisualize name ws (AbortSchedule.afterSteps k)).1.ctx.eventHistory = 0) := by
  refine ⟨?_, ?_, ?_, ?_⟩
  · intro sched
    match sched with
    | AbortSchedule.beforeStart =>
      rw [asyncVisualize_beforeStart]
      exact ⟨by simp [countType_cons, countType_nil, startedEvent, errorEvent], rfl⟩
    | AbortSchedule.never =>
      rw [asyncVisualize_never name ws hne]
      exact ⟨by simp [countType_cons, countType_append, countType_displayedEvents,
        countType_nil, startedEvent, completedEvent], rfl⟩
    | AbortSchedule.afterSteps k =>
      rcases Nat.lt_or_ge k ws.length with hk | hk
      · rw [asyncVisualize_afterSteps_lt name ws k hk]
        exact ⟨by simp [countType_cons, countType_append, countType_displayedEvents,
          countType_nil, startedEvent, errorEvent], rfl⟩
      · rw [asyncVisualize_afterSteps_ge name ws k hne hk]
        exact ⟨by simp [countType_cons, countType_append, countType_displayedEvents,
          countType_nil, startedEvent, completedEvent], rfl⟩
  · rw [asyncVisualize_never name ws hne]
  · rw [asyncVisualize_never name ws hne]
    simp [countType_cons, countType_append, countType_displayedEvents,
      countType_nil, startedEvent, completedEvent]
  · intro k hk
    rw [asyncVisualize_afterSteps_lt name ws k hk]
    simp [countType_cons, countType_append, countType_displayedEvents,
      countType_nil, startedEvent, errorEvent]

/-- C4 counterexample: running the delayed-cancellable strategy on the empty
sequence does NOT emit [Started, Completed] and does not resolve Ok: the
ValidateArray decorator throws synchronously, the call yields an error and
the context's history stays empty. -/
theorem C4_counterexample :
    (asyncVisualizeChecked "Async setTimeout + forEach Strategy with Abort"
        (StrategyInput.arr []) AbortSchedule.never).2 =
      Except.error "visualize cannot work with empty array" ∧
    (asyncVisualizeChecked "Async setTimeout + forEach Strategy with Abort"
        (StrategyInput.arr []) AbortSchedule.never).1.eventHistory = [] := by
  exact ⟨rfl, rfl⟩

/-- C4 amended: running the strategy on an empty element sequence raises a
ValidationError synchronously before any event is emitted: no event is
emitted, no timer is scheduled (the method body never runs), the run never
starts and no Ok result is produced. -/
theorem C4_empty_input_rejected (name : String) (sched : AbortSchedule) :
    asyncVisualizeChecked name (StrategyInput.arr []) sched =
      (mkContext name, Except.error "visualize cannot work with empty array") := rfl

/-- C5: on an empty or non-array input, both decorated strategies raise a
ValidationError synchronously before any event is emitted: the call errors
and the Notifier's history remains empty, for the async and the sync
strategy alike. -/
theorem C5_validation_error_synchronous (name : String) (input : StrategyInput)
    (sched : AbortSchedule)
    (h : input = StrategyInput.notArray ∨ input = StrategyInput.arr []) :
    ((asyncVisualizeChecked name input sched).1.eventHistory = [] ∧
      ∃ m, (asyncVisualizeChecked name input sched).2 = Except.error m) ∧
    ((syncVisualizeChecked name input).1.eventHistory = [] ∧
      ∃ m, (syncVisualizeChecked name input).2 = Except.error m) := by
  rcases h with rfl | rfl
  · exact ⟨⟨rfl, "visualize expects an array as first argument", rfl⟩,
      rfl, "visualize expects an array as first argument", rfl⟩
  · exact ⟨⟨rfl, "visualize cannot work with empty array", rfl⟩,
      rfl, "visualize cannot work with empty array", rfl⟩

/-- C5 witness. -/
theorem C5_witness :
    (StrategyInput.arr [] = StrategyInput.notArray ∨
      StrategyInput.arr ([] : List Nat) = StrategyInput.arr []) ∧
    (((asyncVisualizeChecked "n" (StrategyInput.arr []) AbortSchedule.never).1.eventHistory = [] ∧
        ∃ m, (asyncVisualizeChecked "n" (StrategyInput.arr []) AbortSchedule.never).2 =
          Except.error m) ∧
      ((syncVisualizeChecked "n" (StrategyInput.arr [])).1.eventHistory = [] ∧
        ∃ m, (syncVisualizeChecked "n" (StrategyInput.arr [])).2 = Except.error m)) :=
  ⟨Or.inr rfl,
    C5_validation_error_synchronous "n" (StrategyInput.arr []) AbortSchedule.never
      (Or.inr rfl)⟩

def configLoggingOn : VisualizationConfig :=
  { baseDelayMs := 1000, enableLogging := true, logPrefixText := "",
    showTimestamps := false, colorize := true }

def configLoggingOff : VisualizationConfig :=
  { configLoggingOn with enableLogging := false }

/-- C7 counterexample: the observer's field initializer snapshots the
configuration at construction (src 305); after the manager's configuration is
updated so that enableLogging is false at emission time, an observer that was
constructed while logging was enabled still produces output — its update only
ever consults the construction-time snapshot, refuting "reads the
configuration at emission time". -/
theorem C7_counterexample :
    configLoggingOff.enableLogging = false ∧
    consoleObserverUpdate (mkConsoleLoggingObserver configLoggingOn)
      (startedEvent "Async setTimeout + forEach Strategy with Abort") ≠ [] := by
  refine ⟨rfl, ?_⟩
  simp [consoleObserverUpdate, mkConsoleLoggingObserver, consoleLoggingUpdate,
    configLoggingOn, startedEvent]

/-- C7 amended: the ConsoleLoggingObserver reads the configuration once at
construction; for every event it produces no output when that snapshot's
enableLogging flag is false, and its update never mutates engine state (it is
an output-only function of the event). -/
theorem C7_logging_disabled_silent (cfg : VisualizationConfig)
    (e : VisualizationEvent) (h : cfg.enableLogging = false) :
    consoleObserverUpdate (mkConsoleLoggingObserver cfg) e = [] := by
  simp [consoleObserverUpdate, mkConsoleLoggingObserver, consoleLoggingUpdate, h]

/-- C7 witness. -/
theorem C7_witness :
    configLoggingOff.enableLogging = false ∧
    consoleObserverUpdate (mkConsoleLoggingObserver configLoggingOff)
      (errorEvent "boom") = [] :=
  ⟨rfl, C7_logging_disabled_silent configLoggingOff (errorEvent "boom") rfl⟩

/-- A context with the given observers attached in order to a fresh Notifier. -/
def attachAll (name : String) (ids : List Nat) : VisualizationContext :=
  ids.foldl attach (mkContext name)

lemma attach_nodup (c : VisualizationContext) (o : Nat)
    (h : c.observers.Nodup) : (attach c o).observers.Nodup := by
  unfold attach
  by_cases hm : o ∈ c.observers
  · simpa [hm] using h
  · simp [hm, List.nodup_append, h]

lemma foldl_attach_nodup (ids : List Nat) :
    ∀ c : VisualizationContext, c.observers.Nodup →
      (ids.foldl attach c).observers.Nodup := by
  induction ids with
  | nil => intro c h; simpa using h
  | cons i ids ih => intro c h; exact ih (attach c i) (attach_nodup c i h)

lemma attachAll_nodup (name : String) (ids : List Nat) :
    (attachAll name ids).observers.Nodup :=
  foldl_attach_nodup ids (mkContext name) (by simp [mkContext])

lemma runObservers_no_throw (os : List Nat) :
    runObservers (fun _ => false) os = (os, false) := by
  induction os with
  | nil => rfl
  | cons o os ih => simp [runObservers, ih]

/-- C8: attach is idempotent (set semantics), and notify appends the event to
the history and then invokes each currently-attached observer's handler
exactly once for that event. -/
theorem C8_attach_set_semantics_notify_once (name : String) (ids : List Nat)
    (e : VisualizationEvent) :
    (∀ (c : VisualizationContext) (o : Nat), attach (attach c o) o = attach c o) ∧
    (notifyWith (fun _ => false) (attachAll name ids) e).1.eventHistory =
      (attachAll name ids).eventHistory ++ [e] ∧
    (notifyWith (fun _ => false) (attachAll name ids) e).2.1 =
      (attachAll name ids).observers ∧
    (∀ o : Nat,
      ((notifyWith (fun _ => false) (attachAll name ids) e).2.1.count o) =
        if o ∈ (attachAll name ids).observers then 1 else 0) := by
  refine ⟨?_, rfl, ?_, ?_⟩
  · intro c o
    unfold attach
    by_cases hm : o ∈ c.observers
    · simp [hm]
    · simp [hm]
  · simp [notifyWith, runObservers_no_throw]
  · intro o
    have hobs : (notifyWith (fun _ => false) (attachAll name ids) e).2.1 =
        (attachAll name ids).observers := by
      simp [notifyWith, runObservers_no_throw]
    rw [hobs]
    by_cases hm : o ∈ (attachAll name ids).observers
    · simp [hm, List.count_eq_one_of_mem (attachAll_nodup name ids) hm]
    · simp [hm, List.count_eq_zero_of_not_mem hm]

lemma runObservers_eq (throws : Nat → Bool) (os : List Nat) :
    runObservers throws os =
      (os.takeWhile (fun o => !throws o) ++
        (os.dropWhile (fun o => !throws o)).take 1,
       os.any throws) := by
  induction os with
  | nil => rfl
  | cons o os ih =>
    by_cases h : throws o = true
    · simp [runObservers, h, List.takeWhile_cons, List.dropWhile_cons]
    · simp only [Bool.not_eq_true] at h
      simp [runObservers, h, List.takeWhile_cons, List.dropWhile_cons, ih]

/-- C9: if the handler of some attached observer raises during emit, the
exception propagates synchronously to the emitter, the event remains appended
to the history, and the observers invoked are exactly the iteration-order
prefix up to and including the first raising observer — observers after it
are skipped for that event. -/
theorem C9_observer_fault_propagates (name : String) (ids : List Nat)
    (e : VisualizationEvent) (throws : Nat → Bool)
    (h : (attachAll name ids).observers.any throws = true) :
    (notifyWith throws (attachAll name ids) e).2.2 = true ∧
    (notifyWith throws (attachAll name ids) e).1.eventHistory =
      (attachAll name ids).eventHistory ++ [e] ∧
    (notifyWith throws (attachAll name ids) e).2.1 =
      (attachAll name ids).observers.takeWhile (fun o => !throws o) ++
        ((attachAll name ids).observers.dropWhile (fun o => !throws o)).take 1 := by
  refine ⟨?_, rfl, ?_⟩
  · simp [notifyWith, runObservers_eq, h]
  · simp [notifyWith, runObservers_eq]

/-- C9 witness. -/
theorem C9_witness :
    ((attachAll "n" [5, 7, 9]).observers.any (fun o => o == 7) = true) ∧
    ((notifyWith (fun o => o == 7) (attachAll "n" [5, 7, 9])
        (errorEvent "boom")).2.2 = true ∧
      (notifyWith (fun o => o == 7) (attachAll "n" [5, 7, 9])
          (errorEvent "boom")).1.eventHistory =
        (attachAll "n" [5, 7, 9]).eventHistory ++ [errorEvent "boom"] ∧
      (notifyWith (fun o => o == 7) (attachAll "n" [5, 7, 9])
          (errorEvent "boom")).2.1 =
        (attachAll "n" [5, 7, 9]).observers.takeWhile (fun o => !(o == 7)) ++
          ((attachAll "n" [5, 7, 9]).observers.dropWhile (fun o => !(o == 7))).take 1) :=
  ⟨by decide,
    C9_observer_fault_propagates "n" [5, 7, 9] (errorEvent "boom")
      (fun o => o == 7) (by decide)⟩

/-- Invariant tying the element counter to the history (claim C10). -/
def counterInv (c : VisualizationContext) : Prop :=
  c.elementCount = countType EventType.ELEMENT_DISPLAYED c.eventHistory ∧
  (c.eventHistory.filter isDisplayedEvent).map (fun e => e.mdTotalDisplayed) =
    (List.range c.elementCount).map (fun k => some (k + 1))

lemma applyOp_counterInv (c : VisualizationContext) (op : EmitOp)
    (h : counterInv c) : counterInv (applyOp c op) := by
  rcases h with ⟨h1, h2⟩
  match op with
  | EmitOp.started =>
    refine ⟨?_, ?_⟩ <;>
      simp [applyOp, emitStarted_eq, countType_append, countType_cons,
        countType_nil, startedEvent, List.filter_append, isDisplayedEvent,
        h1, h2]
  | EmitOp.completed =>
    refine ⟨?_, ?_⟩ <;>
      simp [applyOp, emitCompleted_eq, countType_append, countType_cons,
        countType_nil, completedEvent, List.filter_append, isDisplayedEvent,
        h1, h2]
  | EmitOp.error m =>
    refine ⟨?_, ?_⟩ <;>
      simp [applyOp, emitError_eq, countType_append, countType_cons,
        countType_nil, errorEvent, List.filter_append, isDisplayedEvent,
        h1, h2]
  | EmitOp.elementDisplayed x i d =>
    refine ⟨?_, ?_⟩
    · simp [applyOp, emitElementDisplayed_eq, countType_append, countType_cons,
        countType_nil, displayedEvent, h1]
    · simp [applyOp, emitElementDisplayed_eq, List.filter_append,
        isDisplayedEvent, displayedEvent, h2, List.range_succ, h1]

lemma foldl_applyOp_counterInv (ops : List EmitOp) :
    ∀ c : VisualizationContext, counterInv c →
      counterInv (ops.foldl applyOp c) := by
  induction ops with
  | nil => intro c h; simpa using h
  | cons op ops ih => intro c h; exact ih (applyOp c op) (applyOp_counterInv c op h)

/-- C10: after any sequence of emit operations on a fresh context,
getElementCount equals the number of ELEMENT_DISPLAYED events in the history,
the k-th ELEMENT_DISPLAYED event (1-based) carries metadata.totalDisplayed = k,
and emitElementDisplayed is the only emit operation that changes the
counter. -/
theorem C10_counter_matches_history (name : String) (ops : List EmitOp) :
    getElementCount (applyOps name ops) =
      countType EventType.ELEMENT_DISPLAYED (applyOps name ops).eventHistory ∧
    ((applyOps name ops).eventHistory.filter isDisplayedEvent).map
        (fun e => e.mdTotalDisplayed) =
      (List.range (getElementCount (applyOps name ops))).map
        (fun k => some (k + 1)) ∧
    (∀ (c : VisualizationContext) (op : EmitOp),
      getElementCount (applyOp c op) =
        getElementCount c + (if incrementsCounter op then 1 else 0)) := by
  have hinv : counterInv (applyOps name ops) :=
    foldl_applyOp_counterInv ops (mkContext name) (by simp [counterInv, mkContext, countType])
  refine ⟨hinv.1, ?_, ?_⟩
  · rw [hinv.2]; rfl
  · intro c op
    match op with
    | EmitOp.started => simp [applyOp, getElementCount, emitStarted_eq, incrementsCounter]
    | EmitOp.completed => simp [applyOp, getElementCount, emitCompleted_eq, incrementsCounter]
    | EmitOp.error m => simp [applyOp, getElementCount, emitError_eq, incrementsCounter]
    | EmitOp.elementDisplayed x i d =>
      simp [applyOp, getElementCount, emitElementDisplayed_eq, incrementsCounter]

/-- C1 witness. -/
theorem C1_witness :
    ([1000, 2000] ≠ ([] : List Nat)) ∧
    (countType EventType.COMPLETED
        (asyncVisualize "n" [1000, 2000] (AbortSchedule.afterSteps 1)).1.ctx.eventHistory +
      countType EventType.ERROR
        (asyncVisualize "n" [1000, 2000] (AbortSchedule.afterSteps 1)).1.ctx.eventHistory = 1 ∧
    countType EventType.COMPLETED
        (asyncVisualize "n" [1000, 2000] (AbortSchedule.afterSteps 1)).1.ctx.eventHistory ≤ 1 ∧
    (asyncVisualize "n" [1000, 2000] (AbortSchedule.afterSteps 1)).2 = PromiseState.resolved ∧
    (countType EventType.COMPLETED
        (asyncVisualize "n" [1000, 2000] (AbortSchedule.afterSteps 1)).1.ctx.eventHistory = 1 ↔
      (asyncVisualize "n" [1000, 2000] (AbortSchedule.afterSteps 1)).1.inner = PromiseState.resolved) ∧
    (countType EventType.ERROR
        (asyncVisualize "n" [1000, 2000] (AbortSchedule.afterSteps 1)).1.ctx.eventHistory = 1 ↔
      (asyncVisualize "n" [1000, 2000] (AbortSchedule.afterSteps 1)).1.inner = PromiseState.rejected)) :=
  ⟨by decide, C1_amended "n" [1000, 2000] (AbortSchedule.afterSteps 1) (by decide)⟩

/-- C2 witness. -/
theorem C2_witness :
    ([30, 10, 20] ≠ ([] : List Nat)) ∧
    ((∀ sched : AbortSchedule,
      countType EventType.STARTED
        (asyncVisualize "n" [30, 10, 20] sched).1.ctx.eventHistory = 1 ∧
      (asyncVisualize "n" [30, 10, 20] sched).1.ctx.eventHistory.head? =
        some (startedEvent "n")) ∧
    (asyncVisualize "n" [30, 10, 20] AbortSchedule.never).1.ctx.eventHistory =
      startedEvent "n" :: (displayedEvents 0 (firingOrder [30, 10, 20]) ++
        [completedEvent "n" ([30, 10, 20] : List Nat).length]) ∧
    countType EventType.COMPLETED
      (asyncVisualize "n" [30, 10, 20] AbortSchedule.never).1.ctx.eventHistory = 1 ∧
    (∀ k, k < ([30, 10, 20] : List Nat).length →
      countType EventType.COMPLETED
        (asyncVisualize "n" [30, 10, 20] (AbortSchedule.afterSteps k)).1.ctx.eventHistory = 0)) :=
  ⟨by decide, C2_amended "n" [30, 10, 20] (by decide)⟩

/-- C3 witness: the spec scenario — cancel immediately after starting a run
with weights [1000, 2000]. -/
theorem C3_witness :
    (([1000, 2000] ≠ ([] : List Nat)) ∧ 0 < ([1000, 2000] : List Nat).length) ∧
    ((countType EventType.ERROR
        (asyncVisualize "n" [1000, 2000] (AbortSchedule.afterSteps 0)).1.ctx.eventHistory = 1 ∧
      countType EventType.COMPLETED
        (asyncVisualize "n" [1000, 2000] (AbortSchedule.afterSteps 0)).1.ctx.eventHistory = 0 ∧
      (asyncVisualize "n" [1000, 2000] (AbortSchedule.afterSteps 0)).1.ctx.eventHistory.filter
          isDisplayedEvent = displayedEvents 0 ((firingOrder [1000, 2000]).take 0)) ∧
    (countType EventType.ERROR
        (asyncVisualize "n" [1000, 2000] AbortSchedule.beforeStart).1.ctx.eventHistory = 1 ∧
      countType EventType.COMPLETED
        (asyncVisualize "n" [1000, 2000] AbortSchedule.beforeStart).1.ctx.eventHistory = 0 ∧
      countType EventType.ELEMENT_DISPLAYED
        (asyncVisualize "n" [1000, 2000] AbortSchedule.beforeStart).1.ctx.eventHistory = 0)) :=
  ⟨⟨by decide, by decide⟩,
    C3_cancellation_behaviour "n" [1000, 2000] 0 (by decide) (by decide)⟩

/-- C6 witness: the spec scenario with weights [30, 10, 20]. -/
theorem C6_witness :
    ([30, 10, 20] ≠ ([] : List Nat)) ∧
    (((asyncVisualize "n" [30, 10, 20] AbortSchedule.never).1.ctx.eventHistory.filter
        isDisplayedEvent).length = ([30, 10, 20] : List Nat).length ∧
    List.Perm
      (((asyncVisualize "n" [30, 10, 20] AbortSchedule.never).1.ctx.eventHistory.filter
          isDisplayedEvent).filterMap (fun e => e.index))
      (List.range ([30, 10, 20] : List Nat).length) ∧
    (∀ e ∈ (asyncVisualize "n" [30, 10, 20] AbortSchedule.never).1.ctx.eventHistory.filter
        isDisplayedEvent,
      ∃ i, e.index = some i ∧ e.delay = ([30, 10, 20] : List Nat)[i]? ∧
        e.element = ([30, 10, 20] : List Nat)[i]?)) :=
  ⟨by decide, C6_one_event_per_element "n" [30, 10, 20] (by decide)⟩
